import Mathlib

/-!
Shallow embedding of the versioned schema registry in
`internal/schema/registry.go` of `rabbit-mq-with-go`.

Modelling conventions:
* A Go `json.RawMessage` (a byte slice) is represented by its parse
  result: `RawMessage := Option JsonValue`, where `none` stands for a
  byte sequence that `json.Unmarshal` rejects and `some j` for a byte
  sequence parsing to the JSON document `j`.  `json.Unmarshal` of any
  well-formed document into `interface{}` succeeds, so the `Register`
  well-formedness guard is exactly `isNone`.
* `json.Unmarshal` into `map[string]interface{}` additionally requires
  the top-level value to be an object (`unmarshalMap`).
* Go maps `map[string]X` of the registry are modelled as functions
  `String → Option X` (`schemas`) resp. `String → List X` (`versions`,
  where a deleted / absent key reads as the empty slice, matching Go's
  nil-slice read semantics).
* JSON objects decoded into `map[string]interface{}` are modelled as
  association lists `List (String × JsonValue)`; Go's nondeterministic
  map iteration order becomes the list order.
* JSON numbers are decoded by Go exclusively to `float64`; they are
  modelled as exact rationals `Rat`.  The `case int, int64` arm of
  `validateField` is unreachable under `json.Unmarshal` decoding and
  therefore has no counterpart here.
* `time.Now()` is modelled by an explicit `now : Nat` argument to every
  mutating operation.
* A Go panic (failed unchecked type assertion `x.(T)`) is modelled by
  `none` in an `Option`-valued result.
* Methods that mutate the receiver and return `error` are modelled as
  `SchemaRegistry → … → SchemaRegistry × Option String`; the returned
  registry on the error path is the untouched receiver, mirroring the
  early `return` before any mutation in the Go source.
-/

/-- Decoded JSON documents (`interface{}` after `json.Unmarshal`). -/
inductive JsonValue where
  | null : JsonValue
  | bool (b : Bool) : JsonValue
  | num (q : Rat) : JsonValue
  | str (s : String) : JsonValue
  | arr (elems : List JsonValue) : JsonValue
  | obj (fields : List (String × JsonValue)) : JsonValue

/-- `json.RawMessage`, abstracted to its parse result (`none` = malformed). -/
abbrev RawMessage := Option JsonValue

/-- Is this JSON value a string?  (Go type assertion `.(string)` succeeds.) -/
def JsonValue.isStr : JsonValue → Bool
  | .str _ => true
  | _ => false

/-- Lookup in a decoded JSON object (`m[key]` on `map[string]interface{}`). -/
def jlookup (m : List (String × JsonValue)) (key : String) : Option JsonValue :=
  (m.find? (fun p => p.1 = key)).map (fun p => p.2)

/-- Key-presence test (`_, exists := m[key]`). -/
def hasKey (m : List (String × JsonValue)) (key : String) : Bool :=
  (jlookup m key).isSome

/-- `json.Unmarshal(raw, &m)` for `m : map[string]interface{}`:
fails on malformed input and on a non-object top-level value. -/
def unmarshalMap : RawMessage → Option (List (String × JsonValue))
  | some (JsonValue.obj fields) => some fields
  | _ => none

/-- `SchemaType` (a Go string type). -/
abbrev SchemaType := String

def SchemaTypeJSON : SchemaType := "json"

def SchemaTypeProtobuf : SchemaType := "protobuf"

def SchemaTypeAvro : SchemaType := "avro"

/-- `CompatibilityMode` (a Go string type). -/
abbrev CompatibilityMode := String

def CompatibilityNone : CompatibilityMode := "NONE"

def CompatibilityBackward : CompatibilityMode := "BACKWARD"

def CompatibilityForward : CompatibilityMode := "FORWARD"

def CompatibilityFull : CompatibilityMode := "FULL"

/-- `SchemaInfo` — the current state of one named schema. -/
structure SchemaInfo where
  id : Nat
  name : String
  version : Nat
  type : SchemaType
  schema : RawMessage
  compatibility : CompatibilityMode
  description : String
  createdAt : Nat
  updatedAt : Nat

/-- `SchemaVersion` — one archived version-history record. -/
structure SchemaVersion where
  version : Nat
  schema : RawMessage
  createdAt : Nat

/-- `ValidationResult`. -/
structure ValidationResult where
  valid : Bool
  errors : List String
  message : String
  deriving DecidableEq

/-- `RegisterOptions`. -/
structure RegisterOptions where
  description : String
  compatibility : CompatibilityMode

/-- `SchemaRegistry` state: the two maps, the id counter and the
process-wide default compatibility mode. -/
structure SchemaRegistry where
  schemas : String → Option SchemaInfo
  versions : String → List SchemaVersion
  nextID : Nat
  defaultCompat : CompatibilityMode

/-- Point update of a string-keyed map. -/
def updateFn {α : Type} (f : String → α) (key : String) (val : α) : String → α :=
  fun x => if x = key then val else f x

/-- `NewSchemaRegistry()`. -/
def NewSchemaRegistry : SchemaRegistry where
  schemas := fun _ => none
  versions := fun _ => []
  nextID := 1
  defaultCompat := CompatibilityBackward

/-- Shared not-found error text (`fmt.Errorf("스키마를 찾을 수 없습니다: %s", name)`). -/
def notFoundMsg (name : String) : String :=
  "스키마를 찾을 수 없습니다: " ++ name

/-- The compatibility mode a `Register` call computes: the override from
`opts` when present and non-empty, otherwise the process-wide default. -/
def regCompat (r : SchemaRegistry) (opts : Option RegisterOptions) :
    CompatibilityMode :=
  match opts with
  | some o => if o.compatibility ≠ "" then o.compatibility else r.defaultCompat
  | none => r.defaultCompat

/-- The description a `Register` call stores. -/
def regDesc (opts : Option RegisterOptions) : String :=
  match opts with
  | some o => o.description
  | none => ""

/-- `Register` — validate JSON well-formedness, then install a new current
schema (bumping the version and archiving the previous current one when the
name already exists).  The pair's second component is the returned `error`. -/
def Register (r : SchemaRegistry) (now : Nat) (name : String) (schemaType : SchemaType)
    (schema : RawMessage) (opts : Option RegisterOptions) :
    SchemaRegistry × Option String :=
  if schemaType = SchemaTypeJSON ∧ schema.isNone = true then
    (r, some "잘못된 JSON 스키마")
  else
    let compatibility := regCompat r opts
    let description := regDesc opts
    match r.schemas name with
    | some existing =>
        ({ r with
            schemas := updateFn r.schemas name (some
              { id := r.nextID, name := name, version := existing.version + 1,
                type := schemaType, schema := schema, compatibility := compatibility,
                description := description, createdAt := now, updatedAt := now }),
            versions := updateFn r.versions name
              (r.versions name ++
                [{ version := existing.version, schema := existing.schema,
                   createdAt := existing.createdAt }]),
            nextID := r.nextID + 1 }, none)
    | none =>
        ({ r with
            schemas := updateFn r.schemas name (some
              { id := r.nextID, name := name, version := 1,
                type := schemaType, schema := schema, compatibility := compatibility,
                description := description, createdAt := now, updatedAt := now }),
            nextID := r.nextID + 1 }, none)

/-- `Get`. -/
def Get (r : SchemaRegistry) (name : String) : Except String SchemaInfo :=
  match r.schemas name with
  | none => .error (notFoundMsg name)
  | some schema => .ok schema

/-- `GetVersion` — current version first, then the history list. -/
def GetVersion (r : SchemaRegistry) (name : String) (version : Nat) :
    Except String SchemaVersion :=
  match r.schemas name with
  | none => .error (notFoundMsg name)
  | some current =>
      if current.version = version then
        .ok { version := current.version, schema := current.schema,
              createdAt := current.createdAt }
      else
        match (r.versions name).find? (fun v => v.version = version) with
        | some v => .ok v
        | none =>
            .error ("버전을 찾을 수 없습니다: " ++ name ++ " v" ++ toString version)

/-- `GetVersions` — the archived history followed by the current version. -/
def GetVersions (r : SchemaRegistry) (name : String) :
    Except String (List SchemaVersion) :=
  match r.schemas name with
  | none => .error (notFoundMsg name)
  | some current =>
      .ok (r.versions name ++
        [{ version := current.version, schema := current.schema,
           createdAt := current.createdAt }])

/-- `Delete` — removes the current schema and the whole history of a name. -/
def Delete (r : SchemaRegistry) (name : String) : SchemaRegistry × Option String :=
  match r.schemas name with
  | none => (r, some (notFoundMsg name))
  | some _ =>
      ({ r with
          schemas := updateFn r.schemas name none,
          versions := updateFn r.versions name [] }, none)

/-- `SetCompatibility` — updates mode and `updatedAt` in place. -/
def SetCompatibility (r : SchemaRegistry) (now : Nat) (name : String)
    (mode : CompatibilityMode) : SchemaRegistry × Option String :=
  match r.schemas name with
  | none => (r, some "스키마를 찾을 수 없습니다")
  | some schema =>
      ({ r with
          schemas := updateFn r.schemas name
            (some { schema with compatibility := mode, updatedAt := now }) }, none)

/-- The enum membership loop of `validateField`: walks the enum slice and
compares `e.(string)` with the value; the unchecked assertion panics
(`none`) at the first non-string entry reached before a match. -/
def enumMember (strVal : String) : List JsonValue → Option Bool
  | [] => some false
  | e :: rest =>
      match e with
      | .str s => if s = strVal then some true else enumMember strVal rest
      | _ => none

/-- The declared type of a property definition:
`expectedType, _ := propDef["type"].(string)` yields `""` when the key is
absent or not a string, which falls into the silent default branch. -/
def declaredType (propDef : List (String × JsonValue)) : String :=
  match jlookup propDef "type" with
  | some (.str s) => s
  | _ => ""

/-- `validateField` — per-field type check.  Result: `none` models a panic;
`some none` success; `some (some e)` the single error returned for the field. -/
def validateField (name : String) (value : JsonValue)
    (propDef : List (String × JsonValue)) : Option (Option String) :=
  if declaredType propDef = "string" then
    match value with
    | .str strVal =>
        match jlookup propDef "enum" with
        | some (.arr es) =>
            match enumMember strVal es with
            | none => none
            | some true => some none
            | some false =>
                some (some ("필드 '" ++ name ++ "'의 값 '" ++ strVal ++
                  "'는 허용되지 않습니다"))
        | _ => some none
    | _ => some (some ("필드 '" ++ name ++ "'는 string 타입이어야 합니다"))
  else if declaredType propDef = "number" then
    match value with
    | .num v =>
        match jlookup propDef "minimum" with
        | some (.num m) =>
            if v < m then
              some (some ("필드 '" ++ name ++ "'의 값은 " ++ toString m ++
                " 이상이어야 합니다"))
            else some none
        | _ => some none
    | _ => some (some ("필드 '" ++ name ++ "'는 number 타입이어야 합니다"))
  else if declaredType propDef = "boolean" then
    match value with
    | .bool _ => some none
    | _ => some (some ("필드 '" ++ name ++ "'는 boolean 타입이어야 합니다"))
  else if declaredType propDef = "object" then
    match value with
    | .obj _ => some none
    | _ => some (some ("필드 '" ++ name ++ "'는 object 타입이어야 합니다"))
  else if declaredType propDef = "array" then
    match value with
    | .arr _ => some none
    | _ => some (some ("필드 '" ++ name ++ "'는 array 타입이어야 합니다"))
  else
    some none

/-- The required-field loop of `validateJSON`: each entry of the `required`
array passes through the unchecked assertion `field.(string)` (panic =
`none`), and a missing-field error is appended for absent payload keys. -/
def checkRequired (dataMap : List (String × JsonValue)) :
    List JsonValue → Option (List String)
  | [] => some []
  | f :: rest =>
      match f with
      | .str s =>
          (checkRequired dataMap rest).map (fun tail =>
            if hasKey dataMap s then tail else ("필수 필드 누락: " ++ s) :: tail)
      | _ => none

/-- The property loop of `validateJSON`: for every payload key that also
appears under `properties`, the property definition passes through the
unchecked assertion `propDef.(map[string]interface{})` (panic = `none`)
and the field is checked with `validateField`. -/
def checkProps (props : List (String × JsonValue)) :
    List (String × JsonValue) → Option (List String)
  | [] => some []
  | (k, v) :: rest =>
      match jlookup props k with
      | some propDef =>
          match propDef with
          | .obj propMap =>
              match validateField k v propMap with
              | none => none
              | some (some e) => (checkProps props rest).map (fun t => e :: t)
              | some none => checkProps props rest
          | _ => none
      | none => checkProps props rest

/-- `validateJSON` — parse payload and schema into maps, run the
required-field check then the property checks, aggregate.  The outer
`Option` models a Go panic escaping the function. -/
def validateJSON (schema : SchemaInfo) (data : RawMessage) :
    Option ValidationResult :=
  match unmarshalMap data with
  | none => some { valid := false, errors := ["JSON 파싱 실패"],
                   message := "잘못된 JSON 형식" }
  | some dataMap =>
      match unmarshalMap schema.schema with
      | none => some { valid := false, errors := ["스키마 파싱 실패"],
                       message := "잘못된 스키마 형식" }
      | some schemaMap =>
          let reqPart :=
            match jlookup schemaMap "required" with
            | some (.arr fields) => checkRequired dataMap fields
            | _ => some []
          match reqPart with
          | none => none
          | some reqErrs =>
              let propPart :=
                match jlookup schemaMap "properties" with
                | some (.obj props) => checkProps props dataMap
                | _ => some []
              match propPart with
              | none => none
              | some propErrs =>
                  let errs := reqErrs ++ propErrs
                  if errs.length > 0 then
                    some { valid := false, errors := errs,
                           message := toString errs.length ++ "개의 검증 오류" }
                  else
                    some { valid := true, errors := [],
                           message := "검증 성공" }

/-- Transcribed from the spec (§4.2, step 3): for every name listed under
the schema's `required` array, emit a missing-field error when the name is
absent from the payload mapping.  (String literals follow the source; the
spec's "missing required field" denotes the source's Korean text.) -/
def specRequiredErrors (dataMap : List (String × JsonValue))
    (fields : List JsonValue) : List String :=
  fields.filterMap (fun f =>
    match f with
    | .str s => if hasKey dataMap s then none else some ("필수 필드 누락: " ++ s)
    | _ => none)

/-- Transcribed from the spec (§4.2, step 4): check a payload value against
a property definition's declared `type`; strings also honour a declared
`enum` (case-sensitive membership), numbers a declared `minimum`
(value must be ≥ minimum); boolean/object/array are structural checks;
unknown declared types pass silently.  `some e` is the emitted error. -/
def specFieldCheck (name : String) (value : JsonValue)
    (propDef : List (String × JsonValue)) : Option String :=
  if declaredType propDef = "string" then
    match value with
    | .str strVal =>
        match jlookup propDef "enum" with
        | some (.arr es) =>
            if es.any (fun e =>
                match e with
                | .str s => s = strVal
                | _ => false) then
              none
            else
              some ("필드 '" ++ name ++ "'의 값 '" ++ strVal ++
                "'는 허용되지 않습니다")
        | _ => none
    | _ => some ("필드 '" ++ name ++ "'는 string 타입이어야 합니다")
  else if declaredType propDef = "number" then
    match value with
    | .num v =>
        match jlookup propDef "minimum" with
        | some (.num m) =>
            if v < m then
              some ("필드 '" ++ name ++ "'의 값은 " ++ toString m ++
                " 이상이어야 합니다")
            else none
        | _ => none
    | _ => some ("필드 '" ++ name ++ "'는 number 타입이어야 합니다")
  else if declaredType propDef = "boolean" then
    match value with
    | .bool _ => none
    | _ => some ("필드 '" ++ name ++ "'는 boolean 타입이어야 합니다")
  else if declaredType propDef = "object" then
    match value with
    | .obj _ => none
    | _ => some ("필드 '" ++ name ++ "'는 object 타입이어야 합니다")
  else if declaredType propDef = "array" then
    match value with
    | .arr _ => none
    | _ => some ("필드 '" ++ name ++ "'는 array 타입이어야 합니다")
  else
    none

/-- Transcribed from the spec (§4.2, step 4): run the per-field check for
every payload key that is also present under the schema's `properties`
mapping, collecting the emitted errors. -/
def specPropErrors (props : List (String × JsonValue))
    (dataMap : List (String × JsonValue)) : List String :=
  dataMap.filterMap (fun kv =>
    match jlookup props kv.1 with
    | some (.obj pm) => specFieldCheck kv.1 kv.2 pm
    | _ => none)

/-- Transcribed from the spec (§4.2): the whole validation algorithm for a
JSON-kind schema — parse payload, parse schema, required-field check,
property-type checks, aggregate with `valid = (count == 0)` and the summary
message. -/
def specValidateJSON (schemaRaw : RawMessage) (data : RawMessage) :
    ValidationResult :=
  match unmarshalMap data with
  | none => { valid := false, errors := ["JSON 파싱 실패"],
              message := "잘못된 JSON 형식" }
  | some dataMap =>
      match unmarshalMap schemaRaw with
      | none => { valid := false, errors := ["스키마 파싱 실패"],
                  message := "잘못된 스키마 형식" }
      | some schemaMap =>
          let reqErrs :=
            match jlookup schemaMap "required" with
            | some (.arr fields) => specRequiredErrors dataMap fields
            | _ => []
          let propErrs :=
            match jlookup schemaMap "properties" with
            | some (.obj props) => specPropErrors props dataMap
            | _ => []
          let errs := reqErrs ++ propErrs
          if errs.isEmpty then
            { valid := true, errors := [], message := "검증 성공" }
          else
            { valid := false, errors := errs,
              message := toString errs.length ++ "개의 검증 오류" }

/-- Well-shaped property definition: an object whose declared `enum`
array (if any) contains only strings. -/
def wellShapedProp : JsonValue → Bool
  | .obj pm =>
      (match jlookup pm "enum" with
       | some (.arr es) => es.all JsonValue.isStr
       | _ => true)
  | _ => false

/-- Well-shaped parsed schema object: every entry of a declared `required`
array is a string, and every value of a declared `properties` mapping is a
well-shaped property definition. -/
def wellShapedSchemaMap (m : List (String × JsonValue)) : Bool :=
  (match jlookup m "required" with
   | some (.arr fields) => fields.all JsonValue.isStr
   | _ => true) &&
  (match jlookup m "properties" with
   | some (.obj props) => props.all (fun kv => wellShapedProp kv.2)
   | _ => true)

/-- Well-shaped raw schema definition: malformed and non-object documents
never reach the unchecked assertions, so only parsed objects are
constrained. -/
def wellShapedRaw : RawMessage → Bool
  | some (JsonValue.obj m) => wellShapedSchemaMap m
  | _ => true

/-- `Validate` — resolve the current schema by name and dispatch on its
type; lookup failure and unsupported types yield failing results, never
errors.  The outer `Option` models a panic escaping `validateJSON`. -/
def Validate (r : SchemaRegistry) (schemaName : String) (data : RawMessage) :
    Option ValidationResult :=
  match Get r schemaName with
  | .error msg =>
      some { valid := false, errors := [msg], message := "스키마 조회 실패" }
  | .ok schema =>
      if schema.type = SchemaTypeJSON then
        validateJSON schema data
      else if schema.type = SchemaTypeProtobuf then
        some { valid := false, errors := ["Protobuf 검증은 아직 지원하지 않습니다"],
               message := "미지원 타입" }
      else if schema.type = SchemaTypeAvro then
        some { valid := false, errors := ["Avro 검증은 아직 지원하지 않습니다"],
               message := "미지원 타입" }
      else
        some { valid := false,
               errors := ["알 수 없는 스키마 타입: " ++ schema.type],
               message := "알 수 없는 타입" }

/-- One mutating operation on the registry (used for lifetime invariants). -/
inductive RegOp where
  | register (now : Nat) (name : String) (schemaType : SchemaType)
      (schema : RawMessage) (opts : Option RegisterOptions) : RegOp
  | delete (name : String) : RegOp
  | setCompat (now : Nat) (name : String) (mode : CompatibilityMode) : RegOp

/-- Apply one operation; a returned error leaves the receiver untouched. -/
def applyOp (r : SchemaRegistry) : RegOp → SchemaRegistry
  | .register now name schemaType schema opts =>
      (Register r now name schemaType schema opts).1
  | .delete name => (Delete r name).1
  | .setCompat now name mode => (SetCompatibility r now name mode).1

/-- Run a sequence of operations from a starting state. -/
def runOps (r : SchemaRegistry) : List RegOp → SchemaRegistry
  | [] => r
  | op :: rest => runOps (applyOp r op) rest

/-- Did this `Register` call succeed (return a nil error)? -/
def regSucceeds (r : SchemaRegistry) : RegOp → Bool
  | .register now name schemaType schema opts =>
      (Register r now name schemaType schema opts).2.isNone
  | _ => false

/-- The ids handed out by the successful `Register` calls of a run, in
order: each successful call installs a schema with `id = r.nextID`. -/
def issuedIds (r : SchemaRegistry) : List RegOp → List Nat
  | [] => []
  | op :: rest =>
      if regSucceeds r op then
        r.nextID :: issuedIds (applyOp r op) rest
      else
        issuedIds (applyOp r op) rest

/-- The arguments of one `Register` call aimed at a fixed name. -/
structure RegInput where
  now : Nat
  schemaType : SchemaType
  schema : RawMessage
  opts : Option RegisterOptions

/-- This input makes `Register` succeed (the only failure is a malformed
JSON-kind definition). -/
def regOk (i : RegInput) : Prop :=
  ¬(i.schemaType = SchemaTypeJSON ∧ i.schema.isNone = true)

instance (i : RegInput) : Decidable (regOk i) := by
  unfold regOk; infer_instance

/-- A sequence of `Register` calls for one fixed name. -/
def registerSeq (r : SchemaRegistry) (name : String) : List RegInput → SchemaRegistry
  | [] => r
  | i :: rest =>
      registerSeq (Register r i.now name i.schemaType i.schema i.opts).1 name rest

/-- The predefined `OrderEventSchema` document of the source, as a parsed
JSON value. -/
def OrderEventSchema : RawMessage :=
  some (JsonValue.obj
    [("$schema", JsonValue.str "http://json-schema.org/draft-07/schema#"),
     ("type", JsonValue.str "object"),
     ("required", JsonValue.arr
       [JsonValue.str "order_id", JsonValue.str "customer_id",
        JsonValue.str "amount", JsonValue.str "status",
        JsonValue.str "created_at"]),
     ("properties", JsonValue.obj
       [("order_id", JsonValue.obj [("type", JsonValue.str "string")]),
        ("customer_id", JsonValue.obj [("type", JsonValue.str "string")]),
        ("amount", JsonValue.obj
          [("type", JsonValue.str "number"), ("minimum", JsonValue.num 0)]),
        ("status", JsonValue.obj
          [("type", JsonValue.str "string"),
           ("enum", JsonValue.arr
             [JsonValue.str "created", JsonValue.str "paid",
              JsonValue.str "shipped", JsonValue.str "delivered",
              JsonValue.str "cancelled"])]),
        ("created_at", JsonValue.obj
          [("type", JsonValue.str "string"),
           ("format", JsonValue.str "date-time")])])])

/-! ### Basic lemmas about the registry operations -/

theorem updateFn_same {α : Type} (f : String → α) (key : String) (val : α) :
    updateFn f key val key = val := by
  simp [updateFn]

theorem updateFn_other {α : Type} (f : String → α) (key : String) (val : α)
    (x : String) (h : x ≠ key) : updateFn f key val x = f x := by
  simp [updateFn, h]

/-- A `Register` call for a fresh name, in closed form. -/
theorem Register_fresh (r : SchemaRegistry) (now : Nat) (name : String)
    (ty : SchemaType) (sch : RawMessage) (opts : Option RegisterOptions)
    (hok : ¬(ty = SchemaTypeJSON ∧ sch.isNone = true))
    (hs : r.schemas name = none) :
    Register r now name ty sch opts =
      ({ r with
          schemas := updateFn r.schemas name (some
            { id := r.nextID, name := name, version := 1,
              type := ty, schema := sch, compatibility := regCompat r opts,
              description := regDesc opts, createdAt := now, updatedAt := now }),
          nextID := r.nextID + 1 }, none) := by
  unfold Register
  rw [if_neg hok, hs]

/-- A `Register` call for an already-registered name, in closed form:
the version bumps by one, the previous current schema is archived, and a
fresh id is taken from the counter. -/
theorem Register_bump (r : SchemaRegistry) (now : Nat) (name : String)
    (ty : SchemaType) (sch : RawMessage) (opts : Option RegisterOptions)
    (ex : SchemaInfo)
    (hok : ¬(ty = SchemaTypeJSON ∧ sch.isNone = true))
    (hs : r.schemas name = some ex) :
    Register r now name ty sch opts =
      ({ r with
          schemas := updateFn r.schemas name (some
            { id := r.nextID, name := name, version := ex.version + 1,
              type := ty, schema := sch, compatibility := regCompat r opts,
              description := regDesc opts, createdAt := now, updatedAt := now }),
          versions := updateFn r.versions name
            (r.versions name ++
              [{ version := ex.version, schema := ex.schema,
                 createdAt := ex.createdAt }]),
          nextID := r.nextID + 1 }, none) := by
  unfold Register
  rw [if_neg hok, hs]

/-! ### Concrete demonstration states (used by witnesses and counterexamples) -/

/-- A minimal well-formed JSON definition. -/
def demoEmptyObj : RawMessage := some (JsonValue.obj [])

/-- State after a first registration of "A" at time 0 with nil options. -/
def demoR1 : SchemaRegistry :=
  (Register NewSchemaRegistry 0 "A" SchemaTypeJSON demoEmptyObj none).1

/-- State after re-registering "A" at time 5 with nil options. -/
def demoR2 : SchemaRegistry :=
  (Register demoR1 5 "A" SchemaTypeJSON demoEmptyObj none).1

/-- The current schema of "A" in `demoR1`, written out. -/
def demoInfoA : SchemaInfo :=
  { id := 1, name := "A", version := 1, type := SchemaTypeJSON,
    schema := demoEmptyObj, compatibility := CompatibilityBackward,
    description := "", createdAt := 0, updatedAt := 0 }

/-- State after a first registration of "A" with an explicit FULL mode. -/
def demoRFull : SchemaRegistry :=
  (Register NewSchemaRegistry 0 "A" SchemaTypeJSON demoEmptyObj
    (some { description := "d", compatibility := CompatibilityFull })).1

/-- State after registering a protobuf schema under "P". -/
def demoRProto : SchemaRegistry :=
  (Register NewSchemaRegistry 0 "P" SchemaTypeProtobuf none none).1

/-! ### C4 — id stability across version bumps -/

/-- C4: counterexample.  Re-registering "A" does NOT keep the previous id:
the first registration installs id 1, the bump installs id 2. -/
theorem id_stability_counterexample :
    (demoR1.schemas "A").map SchemaInfo.id = some 1 ∧
    (demoR2.schemas "A").map SchemaInfo.id = some 2 ∧
    (demoR2.schemas "A").map SchemaInfo.id ≠ (demoR1.schemas "A").map SchemaInfo.id := by
  refine ⟨by decide, by decide, by decide⟩

/-- C4 (amended): a successful re-registration of an existing name installs
a FRESH id taken from the global counter — the new current schema's id is
`r.nextID`, strictly greater than (hence different from) the previous
current schema's id whenever the previous id is below the counter. -/
theorem id_fresh_on_bump (r : SchemaRegistry) (now : Nat) (name : String)
    (ty : SchemaType) (sch : RawMessage) (opts : Option RegisterOptions)
    (ex : SchemaInfo) (hs : r.schemas name = some ex) (hb : ex.id < r.nextID)
    (hok : ¬(ty = SchemaTypeJSON ∧ sch.isNone = true)) :
    (Register r now name ty sch opts).2 = none ∧
    ∃ s2, (Register r now name ty sch opts).1.schemas name = some s2 ∧
      s2.id = r.nextID ∧ ex.id < s2.id := by
  rw [Register_bump r now name ty sch opts ex hok hs]
  exact ⟨rfl, _, updateFn_same .., rfl, hb⟩

/-- Witness for `id_fresh_on_bump` at the concrete bump of "A". -/
theorem id_fresh_on_bump_witness :
    (Register demoR1 5 "A" SchemaTypeJSON demoEmptyObj none).2 = none ∧
    ∃ s2, (Register demoR1 5 "A" SchemaTypeJSON demoEmptyObj none).1.schemas "A" = some s2 ∧
      s2.id = demoR1.nextID ∧ demoInfoA.id < s2.id :=
  id_fresh_on_bump demoR1 5 "A" SchemaTypeJSON demoEmptyObj none demoInfoA
    rfl (by decide) (by decide)

/-! ### C5 — createdAt stability across version bumps -/

/-- C5: counterexample.  Re-registering "A" at time 5 does NOT preserve the
lineage's original `createdAt` (0): the new current schema carries 5. -/
theorem createdAt_stability_counterexample :
    (demoR1.schemas "A").map SchemaInfo.createdAt = some 0 ∧
    (demoR2.schemas "A").map SchemaInfo.createdAt = some 5 ∧
    (demoR2.schemas "A").map SchemaInfo.createdAt ≠
      (demoR1.schemas "A").map SchemaInfo.createdAt := by
  refine ⟨by decide, by decide, by decide⟩

/-- C5 (amended): every successful re-registration sets BOTH `createdAt`
and `updatedAt` of the new current schema to the registration time; the
previous `createdAt` survives only in the archived VersionRecord; and
`SetCompatibility` refreshes `updatedAt` as well. -/
theorem createdAt_refresh_on_bump (r : SchemaRegistry) (now : Nat) (name : String)
    (ty : SchemaType) (sch : RawMessage) (opts : Option RegisterOptions)
    (ex : SchemaInfo) (hs : r.schemas name = some ex)
    (hok : ¬(ty = SchemaTypeJSON ∧ sch.isNone = true)) :
    (Register r now name ty sch opts).2 = none ∧
    (∃ s2, (Register r now name ty sch opts).1.schemas name = some s2 ∧
      s2.createdAt = now ∧ s2.updatedAt = now) ∧
    (Register r now name ty sch opts).1.versions name =
      r.versions name ++
        [{ version := ex.version, schema := ex.schema, createdAt := ex.createdAt }] ∧
    (∀ (now2 : Nat) (mode : CompatibilityMode),
      ∃ s3, (SetCompatibility r now2 name mode).1.schemas name = some s3 ∧
        s3.updatedAt = now2 ∧ s3.createdAt = ex.createdAt ∧ s3.compatibility = mode) := by
  rw [Register_bump r now name ty sch opts ex hok hs]
  refine ⟨rfl, ⟨_, updateFn_same .., rfl, rfl⟩, updateFn_same .., ?_⟩
  intro now2 mode
  unfold SetCompatibility
  rw [hs]
  exact ⟨_, updateFn_same .., rfl, rfl, rfl⟩

/-- Witness for `createdAt_refresh_on_bump` at the concrete bump of "A". -/
theorem createdAt_refresh_on_bump_witness :
    (Register demoR1 5 "A" SchemaTypeJSON demoEmptyObj none).2 = none ∧
    (∃ s2, (Register demoR1 5 "A" SchemaTypeJSON demoEmptyObj none).1.schemas "A" = some s2 ∧
      s2.createdAt = 5 ∧ s2.updatedAt = 5) ∧
    (Register demoR1 5 "A" SchemaTypeJSON demoEmptyObj none).1.versions "A" =
      demoR1.versions "A" ++
        [{ version := demoInfoA.version, schema := demoInfoA.schema,
           createdAt := demoInfoA.createdAt }] ∧
    (∀ (now2 : Nat) (mode : CompatibilityMode),
      ∃ s3, (SetCompatibility demoR1 now2 "A" mode).1.schemas "A" = some s3 ∧
        s3.updatedAt = now2 ∧ s3.createdAt = demoInfoA.createdAt ∧
        s3.compatibility = mode) :=
  createdAt_refresh_on_bump demoR1 5 "A" SchemaTypeJSON demoEmptyObj none demoInfoA
    rfl (by decide)

/-! ### C6 — compatibility mode recomputed on every registration -/

/-- C6: a `Register` call with nil options, or with an empty compatibility
field, installs the process-wide default mode (BACKWARD) — regardless of
what mode the prior current schema carried. -/
theorem register_recomputes_compatibility (r : SchemaRegistry) (now : Nat)
    (name : String) (ty : SchemaType) (sch : RawMessage)
    (opts : Option RegisterOptions)
    (hd : r.defaultCompat = CompatibilityBackward)
    (hopts : opts = none ∨ ∃ o, opts = some o ∧ o.compatibility = "")
    (hok : ¬(ty = SchemaTypeJSON ∧ sch.isNone = true)) :
    (Register r now name ty sch opts).2 = none ∧
    ∃ s2, (Register r now name ty sch opts).1.schemas name = some s2 ∧
      s2.compatibility = CompatibilityBackward := by
  have hc : regCompat r opts = CompatibilityBackward := by
    rcases hopts with h | ⟨o, ho, hoc⟩
    · rw [h, regCompat, hd]
    · rw [ho]; simp [regCompat, hoc, hd]
  cases hcur : r.schemas name with
  | none =>
      rw [Register_fresh r now name ty sch opts hok hcur]
      exact ⟨rfl, _, updateFn_same .., hc⟩
  | some ex =>
      rw [Register_bump r now name ty sch opts ex hok hcur]
      exact ⟨rfl, _, updateFn_same .., hc⟩

/-- Witness for `register_recomputes_compatibility`: "A" currently holds
FULL; re-registering with nil options resets the mode to BACKWARD. -/
theorem register_recomputes_compatibility_witness :
    demoRFull.defaultCompat = CompatibilityBackward ∧
    (demoRFull.schemas "A").map SchemaInfo.compatibility = some CompatibilityFull ∧
    ((Register demoRFull 9 "A" SchemaTypeJSON demoEmptyObj none).2 = none ∧
      ∃ s2, (Register demoRFull 9 "A" SchemaTypeJSON demoEmptyObj none).1.schemas "A" =
          some s2 ∧ s2.compatibility = CompatibilityBackward) :=
  ⟨by decide, by decide,
   register_recomputes_compatibility demoRFull 9 "A" SchemaTypeJSON demoEmptyObj none
     (by decide) (Or.inl rfl) (by decide)⟩

/-! ### C7 — malformed JSON definitions are rejected with no state change -/

/-- C7: a JSON-kind registration whose definition does not parse returns the
invalid-definition error and leaves the whole state — counter, current-schema
map and version history — untouched. -/
theorem register_malformed_json (r : SchemaRegistry) (now : Nat) (name : String)
    (opts : Option RegisterOptions) :
    Register r now name SchemaTypeJSON none opts = (r, some "잘못된 JSON 스키마") ∧
    (Register r now name SchemaTypeJSON none opts).1.nextID = r.nextID ∧
    (Register r now name SchemaTypeJSON none opts).1.schemas = r.schemas ∧
    (Register r now name SchemaTypeJSON none opts).1.versions = r.versions := by
  have h : Register r now name SchemaTypeJSON none opts =
      (r, some "잘못된 JSON 스키마") := by
    unfold Register; rw [if_pos ⟨rfl, rfl⟩]
  exact ⟨h, by rw [h], by rw [h], by rw [h]⟩

/-! ### C8 — Validate never fails fatally on unknown names / kinds -/

/-- C8: `Validate` on an unknown name yields a failing result with exactly
the schema-not-found error, and on a PROTOBUF or AVRO schema it yields a
failing unsupported-type result — never an error and never a panic. -/
theorem validate_never_fatal (r : SchemaRegistry) (name : String) (data : RawMessage) :
    (r.schemas name = none →
      Validate r name data =
        some { valid := false, errors := [notFoundMsg name],
               message := "스키마 조회 실패" }) ∧
    (∀ s, r.schemas name = some s →
      s.type = SchemaTypeProtobuf ∨ s.type = SchemaTypeAvro →
      ∃ res, Validate r name data = some res ∧ res.valid = false ∧
        res.errors.length = 1 ∧ res.message = "미지원 타입") := by
  constructor
  · intro h
    unfold Validate Get
    rw [h]
  · intro s hs hty
    unfold Validate Get
    rw [hs]
    dsimp only
    rcases hty with h | h
    · rw [h, if_neg (by decide), if_pos rfl]
      exact ⟨_, rfl, rfl, rfl, rfl⟩
    · rw [h, if_neg (by decide), if_neg (by decide), if_pos rfl]
      exact ⟨_, rfl, rfl, rfl, rfl⟩

/-- Witness for `validate_never_fatal`: the unknown name "Unknown" on the
empty registry, and the protobuf schema "P". -/
theorem validate_never_fatal_witness :
    Validate NewSchemaRegistry "Unknown" demoEmptyObj =
      some { valid := false, errors := [notFoundMsg "Unknown"],
             message := "스키마 조회 실패" } ∧
    ∃ res, Validate demoRProto "P" demoEmptyObj = some res ∧ res.valid = false ∧
      res.errors.length = 1 ∧ res.message = "미지원 타입" :=
  ⟨(validate_never_fatal NewSchemaRegistry "Unknown" demoEmptyObj).1 rfl,
   (validate_never_fatal demoRProto "P" demoEmptyObj).2
     { id := 1, name := "P", version := 1, type := SchemaTypeProtobuf,
       schema := none, compatibility := CompatibilityBackward,
       description := "", createdAt := 0, updatedAt := 0 }
     rfl (Or.inl rfl)⟩

/-! ### C9 — atomic delete -/

/-- C9: deleting an existing name removes the current schema and its whole
history, so `Get`, `GetVersions` and `GetVersion` (for every version) all
report not-found afterwards; deleting an unknown name returns not-found and
leaves the state untouched. -/
theorem delete_atomic (r : SchemaRegistry) (name : String) :
    (∀ s, r.schemas name = some s →
      (Delete r name).2 = none ∧
      (Delete r name).1.schemas name = none ∧
      (Delete r name).1.versions name = [] ∧
      Get (Delete r name).1 name = Except.error (notFoundMsg name) ∧
      GetVersions (Delete r name).1 name = Except.error (notFoundMsg name) ∧
      ∀ v, GetVersion (Delete r name).1 name v = Except.error (notFoundMsg name)) ∧
    (r.schemas name = none → Delete r name = (r, some (notFoundMsg name))) := by
  constructor
  · intro s hs
    have hd : Delete r name =
        ({ r with schemas := updateFn r.schemas name none,
                  versions := updateFn r.versions name [] }, none) := by
      unfold Delete; rw [hs]
    have hsch : (Delete r name).1.schemas name = none := by
      rw [hd]; exact updateFn_same ..
    have hver : (Delete r name).1.versions name = [] := by
      rw [hd]; exact updateFn_same ..
    refine ⟨by rw [hd], hsch, hver, ?_, ?_, ?_⟩
    · unfold Get; rw [hsch]
    · unfold GetVersions; rw [hsch]
    · intro v; unfold GetVersion; rw [hsch]
  · intro h
    unfold Delete; rw [h]

/-- Witness for `delete_atomic` on the concrete state holding "A". -/
theorem delete_atomic_witness :
    (Delete demoR1 "A").2 = none ∧
    Get (Delete demoR1 "A").1 "A" = Except.error (notFoundMsg "A") ∧
    GetVersions (Delete demoR1 "A").1 "A" = Except.error (notFoundMsg "A") ∧
    GetVersion (Delete demoR1 "A").1 "A" 1 = Except.error (notFoundMsg "A") ∧
    Delete NewSchemaRegistry "B" = (NewSchemaRegistry, some (notFoundMsg "B")) := by
  have h := (delete_atomic demoR1 "A").1 demoInfoA rfl
  exact ⟨h.1, h.2.2.2.1, h.2.2.2.2.1, h.2.2.2.2.2 1,
    (delete_atomic NewSchemaRegistry "B").2 rfl⟩

/-! ### C1 — version monotonicity and history order -/

theorem range'_concat_succ (m : Nat) :
    List.range' 1 (m + 1) = List.range' 1 m ++ [m + 1] := by
  have h := @List.range'_concat 1 1 m
  rw [Nat.one_mul, Nat.add_comm 1 m] at h
  exact h

/-- Version-history invariant for one name: with no current schema the
history is empty; with a current schema at version `n`, the archived
records carry exactly the versions `1 … n-1`, in ascending order. -/
def VInv (r : SchemaRegistry) (name : String) : Nat → Prop
  | 0 => r.schemas name = none ∧ r.versions name = []
  | n + 1 =>
      (∃ s, r.schemas name = some s ∧ s.version = n + 1) ∧
      List.map SchemaVersion.version (r.versions name) = List.range' 1 n

theorem register_step_VInv (r : SchemaRegistry) (name : String) (n : Nat)
    (i : RegInput) (hok : regOk i) (h : VInv r name n) :
    VInv (Register r i.now name i.schemaType i.schema i.opts).1 name (n + 1) := by
  cases n with
  | zero =>
      obtain ⟨hs, hv⟩ := h
      rw [Register_fresh r i.now name i.schemaType i.schema i.opts hok hs]
      refine ⟨⟨_, updateFn_same .., rfl⟩, ?_⟩
      dsimp only
      rw [hv]
      rfl
  | succ m =>
      obtain ⟨⟨s, hs, hver⟩, hhist⟩ := h
      rw [Register_bump r i.now name i.schemaType i.schema i.opts s hok hs]
      refine ⟨⟨_, updateFn_same .., ?_⟩, ?_⟩
      · dsimp only
        rw [hver]
      · dsimp only
        rw [updateFn_same, List.map_append, hhist]
        have h1 : List.map SchemaVersion.version
            [{ version := s.version, schema := s.schema, createdAt := s.createdAt }] =
            [s.version] := rfl
        rw [h1, hver, ← range'_concat_succ]

theorem registerSeq_VInv (name : String) :
    ∀ (l : List RegInput) (r : SchemaRegistry) (n : Nat),
      (∀ i ∈ l, regOk i) → VInv r name n →
      VInv (registerSeq r name l) name (n + l.length)
  | [], r, n, _, h => by simpa [registerSeq] using h
  | i :: rest, r, n, hok, h => by
      have h1 := register_step_VInv r name n i (hok i (by simp)) h
      have h2 := registerSeq_VInv name rest
        (Register r i.now name i.schemaType i.schema i.opts).1 (n + 1)
        (fun j hj => hok j (by simp [hj])) h1
      show VInv (registerSeq (Register r i.now name i.schemaType i.schema i.opts).1
        name rest) name (n + (i :: rest).length)
      have heq : n + (i :: rest).length = (n + 1) + rest.length := by
        simp [List.length_cons]; omega
      rw [heq]
      exact h2

/-- C1: starting from a state where `name` is unregistered, a sequence of
`n` successful `Register` calls for that name leaves the current version at
`n`, and `GetVersions` then returns exactly `n` records — the archived
entries followed by the current one — whose versions are `1, 2, …, n` in
ascending order; moreover each single re-registration installs
`version = existing.version + 1` and archives the previous current schema. -/
theorem register_version_monotonicity (r : SchemaRegistry) (name : String)
    (l : List RegInput) (hne : l ≠ [])
    (hfresh : r.schemas name = none) (hhist : r.versions name = [])
    (hok : ∀ i ∈ l, regOk i) :
    (∃ s, (registerSeq r name l).schemas name = some s ∧ s.version = l.length) ∧
    (∃ vs, GetVersions (registerSeq r name l) name = Except.ok vs ∧
      vs.length = l.length ∧
      List.map SchemaVersion.version vs = List.range' 1 l.length) ∧
    (∀ (r2 : SchemaRegistry) (i : RegInput) (ex : SchemaInfo),
      r2.schemas name = some ex → regOk i →
      (Register r2 i.now name i.schemaType i.schema i.opts).2 = none ∧
      (∃ s2, (Register r2 i.now name i.schemaType i.schema i.opts).1.schemas name =
          some s2 ∧ s2.version = ex.version + 1) ∧
      (Register r2 i.now name i.schemaType i.schema i.opts).1.versions name =
        r2.versions name ++
          [{ version := ex.version, schema := ex.schema,
             createdAt := ex.createdAt }]) := by
  have hinv := registerSeq_VInv name l r 0 hok ⟨hfresh, hhist⟩
  rw [Nat.zero_add] at hinv
  obtain ⟨m, hm⟩ : ∃ m, l.length = m + 1 := by
    cases l with
    | nil => exact absurd rfl hne
    | cons a t => exact ⟨t.length, rfl⟩
  rw [hm] at hinv
  obtain ⟨⟨s, hs, hver⟩, hhist2⟩ := hinv
  refine ⟨⟨s, hs, by rw [hver, hm]⟩, ?_, ?_⟩
  · have hgv : GetVersions (registerSeq r name l) name =
        Except.ok ((registerSeq r name l).versions name ++
          [{ version := s.version, schema := s.schema, createdAt := s.createdAt }]) := by
      unfold GetVersions; rw [hs]
    refine ⟨_, hgv, ?_, ?_⟩
    · have hlen : ((registerSeq r name l).versions name).length = m := by
        have h := congrArg List.length hhist2
        simpa using h
      simp [hlen, hm]
    · rw [hm, List.map_append, hhist2]
      have h1 : List.map SchemaVersion.version
          [{ version := s.version, schema := s.schema, createdAt := s.createdAt }] =
          [s.version] := rfl
      rw [h1, hver, ← range'_concat_succ]
  · intro r2 i ex h1 h2
    rw [Register_bump r2 i.now name i.schemaType i.schema i.opts ex h2 h1]
    exact ⟨rfl, ⟨_, updateFn_same .., rfl⟩, updateFn_same ..⟩

/-- Three concrete registrations of "A". -/
def demoInputs : List RegInput :=
  [{ now := 0, schemaType := SchemaTypeJSON, schema := demoEmptyObj, opts := none },
   { now := 5, schemaType := SchemaTypeJSON, schema := demoEmptyObj, opts := none },
   { now := 9, schemaType := SchemaTypeJSON, schema := demoEmptyObj, opts := none }]

/-- Witness for `register_version_monotonicity` with three registrations. -/
theorem register_version_monotonicity_witness :
    (∀ i ∈ demoInputs, regOk i) ∧
    (∃ s, (registerSeq NewSchemaRegistry "A" demoInputs).schemas "A" = some s ∧
      s.version = demoInputs.length) ∧
    (∃ vs, GetVersions (registerSeq NewSchemaRegistry "A" demoInputs) "A" =
        Except.ok vs ∧ vs.length = demoInputs.length ∧
      List.map SchemaVersion.version vs = List.range' 1 demoInputs.length) := by
  have h := register_version_monotonicity NewSchemaRegistry "A" demoInputs
    (by simp [demoInputs]) rfl rfl (by decide)
  exact ⟨by decide, h.1, h.2.1⟩

/-! ### C3 — id freshness and monotonicity over the Store lifetime -/

/-- Every `Register` call either leaves the state untouched (error path) or
installs a schema carrying `id = r.nextID` and bumps the counter. -/
theorem register_result (r : SchemaRegistry) (now : Nat) (name : String)
    (ty : SchemaType) (sch : RawMessage) (opts : Option RegisterOptions) :
    (Register r now name ty sch opts).1 = r ∨
    ∃ v, (Register r now name ty sch opts).1.schemas =
        updateFn r.schemas name (some
          { id := r.nextID, name := name, version := v, type := ty, schema := sch,
            compatibility := regCompat r opts, description := regDesc opts,
            createdAt := now, updatedAt := now }) ∧
      (Register r now name ty sch opts).1.nextID = r.nextID + 1 := by
  by_cases hg : ty = SchemaTypeJSON ∧ sch.isNone = true
  · left
    unfold Register
    rw [if_pos hg]
  · cases hcur : r.schemas name with
    | none =>
        right
        exact ⟨1, by rw [Register_fresh r now name ty sch opts hg hcur],
          by rw [Register_fresh r now name ty sch opts hg hcur]⟩
    | some ex =>
        right
        exact ⟨ex.version + 1, by rw [Register_bump r now name ty sch opts ex hg hcur],
          by rw [Register_bump r now name ty sch opts ex hg hcur]⟩

/-- `Delete` either fails (untouched state) or clears the name's entries
without touching the counter. -/
theorem delete_result (r : SchemaRegistry) (name : String) :
    (Delete r name).1 = r ∨
    ((Delete r name).1.schemas = updateFn r.schemas name none ∧
      (Delete r name).1.nextID = r.nextID) := by
  cases h : r.schemas name with
  | none => left; unfold Delete; rw [h]
  | some s => right; constructor <;> (unfold Delete; rw [h])

/-- `SetCompatibility` either fails or rewrites the entry at `name` keeping
its id, without touching the counter. -/
theorem setCompat_result (r : SchemaRegistry) (now : Nat) (name : String)
    (mode : CompatibilityMode) :
    (SetCompatibility r now name mode).1 = r ∨
    ∃ s, r.schemas name = some s ∧
      (SetCompatibility r now name mode).1.schemas =
        updateFn r.schemas name (some { s with compatibility := mode, updatedAt := now }) ∧
      (SetCompatibility r now name mode).1.nextID = r.nextID := by
  cases h : r.schemas name with
  | none => left; unfold SetCompatibility; rw [h]
  | some s =>
      right
      exact ⟨s, rfl, by unfold SetCompatibility; rw [h], by unfold SetCompatibility; rw [h]⟩

/-- All live ids are below the counter. -/
def idBound (r : SchemaRegistry) : Prop :=
  ∀ nm s, r.schemas nm = some s → s.id < r.nextID

/-- No two live schemas share an id. -/
def idInj (r : SchemaRegistry) : Prop :=
  ∀ nm1 nm2 s1 s2, r.schemas nm1 = some s1 → r.schemas nm2 = some s2 →
    s1.id = s2.id → nm1 = nm2

theorem applyOp_nextID_le (r : SchemaRegistry) (op : RegOp) :
    r.nextID ≤ (applyOp r op).nextID := by
  cases op with
  | register now name ty sch opts =>
      show r.nextID ≤ (Register r now name ty sch opts).1.nextID
      rcases register_result r now name ty sch opts with h | ⟨v, _, h2⟩
      · rw [h]
      · rw [h2]; exact Nat.le_succ _
  | delete name =>
      show r.nextID ≤ (Delete r name).1.nextID
      rcases delete_result r name with h | ⟨_, h2⟩
      · rw [h]
      · rw [h2]
  | setCompat now name mode =>
      show r.nextID ≤ (SetCompatibility r now name mode).1.nextID
      rcases setCompat_result r now name mode with h | ⟨s, _, _, h2⟩
      · rw [h]
      · rw [h2]

theorem applyOp_idBound (r : SchemaRegistry) (op : RegOp) (h : idBound r) :
    idBound (applyOp r op) := by
  cases op with
  | register now name ty sch opts =>
      show idBound (Register r now name ty sch opts).1
      rcases register_result r now name ty sch opts with he | ⟨v, hsch, hnext⟩
      · rw [he]; exact h
      · intro nm s hs
        rw [hsch] at hs
        rw [hnext]
        by_cases hnm : nm = name
        · rw [hnm, updateFn_same] at hs
          have hse := Option.some.inj hs
          rw [← hse]
          exact Nat.lt_succ_self _
        · rw [updateFn_other _ _ _ _ hnm] at hs
          exact Nat.lt_succ_of_lt (h nm s hs)
  | delete name =>
      show idBound (Delete r name).1
      rcases delete_result r name with he | ⟨hsch, hnext⟩
      · rw [he]; exact h
      · intro nm s hs
        rw [hsch] at hs
        rw [hnext]
        by_cases hnm : nm = name
        · rw [hnm, updateFn_same] at hs
          exact absurd hs (by simp)
        · rw [updateFn_other _ _ _ _ hnm] at hs
          exact h nm s hs
  | setCompat now name mode =>
      show idBound (SetCompatibility r now name mode).1
      rcases setCompat_result r now name mode with he | ⟨s0, hs0, hsch, hnext⟩
      · rw [he]; exact h
      · intro nm s hs
        rw [hsch] at hs
        rw [hnext]
        by_cases hnm : nm = name
        · rw [hnm, updateFn_same] at hs
          have hse := Option.some.inj hs
          rw [← hse]
          exact h name s0 hs0
        · rw [updateFn_other _ _ _ _ hnm] at hs
          exact h nm s hs

theorem applyOp_idInj (r : SchemaRegistry) (op : RegOp)
    (hb : idBound r) (hi : idInj r) : idInj (applyOp r op) := by
  cases op with
  | register now name ty sch opts =>
      show idInj (Register r now name ty sch opts).1
      rcases register_result r now name ty sch opts with he | ⟨v, hsch, hnext⟩
      · rw [he]; exact hi
      · intro nm1 nm2 s1 s2 h1 h2 heq
        rw [hsch] at h1 h2
        by_cases hn1 : nm1 = name <;> by_cases hn2 : nm2 = name
        · rw [hn1, hn2]
        · rw [hn1, updateFn_same] at h1
          rw [updateFn_other _ _ _ _ hn2] at h2
          have he1 := Option.some.inj h1
          have hlt := hb nm2 s2 h2
          rw [← he1] at heq
          exact absurd (heq ▸ hlt) (Nat.lt_irrefl _)
        · rw [updateFn_other _ _ _ _ hn1] at h1
          rw [hn2, updateFn_same] at h2
          have he2 := Option.some.inj h2
          have hlt := hb nm1 s1 h1
          rw [← he2] at heq
          exact absurd (heq ▸ hlt) (Nat.lt_irrefl _)
        · rw [updateFn_other _ _ _ _ hn1] at h1
          rw [updateFn_other _ _ _ _ hn2] at h2
          exact hi nm1 nm2 s1 s2 h1 h2 heq
  | delete name =>
      show idInj (Delete r name).1
      rcases delete_result r name with he | ⟨hsch, _⟩
      · rw [he]; exact hi
      · intro nm1 nm2 s1 s2 h1 h2 heq
        rw [hsch] at h1 h2
        by_cases hn1 : nm1 = name
        · rw [hn1, updateFn_same] at h1
          exact absurd h1 (by simp)
        · by_cases hn2 : nm2 = name
          · rw [hn2, updateFn_same] at h2
            exact absurd h2 (by simp)
          · rw [updateFn_other _ _ _ _ hn1] at h1
            rw [updateFn_other _ _ _ _ hn2] at h2
            exact hi nm1 nm2 s1 s2 h1 h2 heq
  | setCompat now name mode =>
      show idInj (SetCompatibility r now name mode).1
      rcases setCompat_result r now name mode with he | ⟨s0, hs0, hsch, _⟩
      · rw [he]; exact hi
      · intro nm1 nm2 s1 s2 h1 h2 heq
        rw [hsch] at h1 h2
        by_cases hn1 : nm1 = name <;> by_cases hn2 : nm2 = name
        · rw [hn1, hn2]
        · rw [hn1, updateFn_same] at h1
          rw [updateFn_other _ _ _ _ hn2] at h2
          have he1 := Option.some.inj h1
          refine hi nm1 nm2 s0 s2 (hn1 ▸ hs0) h2 ?_
          rw [← heq, ← he1]
        · rw [updateFn_other _ _ _ _ hn1] at h1
          rw [hn2, updateFn_same] at h2
          have he2 := Option.some.inj h2
          refine hi nm1 nm2 s1 s0 h1 (hn2 ▸ hs0) ?_
          rw [heq, ← he2]
        · rw [updateFn_other _ _ _ _ hn1] at h1
          rw [updateFn_other _ _ _ _ hn2] at h2
          exact hi nm1 nm2 s1 s2 h1 h2 heq

theorem runOps_inv : ∀ (ops : List RegOp) (r : SchemaRegistry),
    idBound r → idInj r → idBound (runOps r ops) ∧ idInj (runOps r ops)
  | [], _, hb, hi => ⟨hb, hi⟩
  | op :: rest, r, hb, hi =>
      runOps_inv rest (applyOp r op) (applyOp_idBound r op hb)
        (applyOp_idInj r op hb hi)

theorem issuedIds_lb : ∀ (ops : List RegOp) (r : SchemaRegistry) (x : Nat),
    x ∈ issuedIds r ops → r.nextID ≤ x
  | [], _, x, h => absurd h (List.not_mem_nil x)
  | op :: rest, r, x, h => by
      unfold issuedIds at h
      split at h
      · rcases List.mem_cons.1 h with heq | hmem
        · exact Nat.le_of_eq heq.symm
        · exact Nat.le_trans (applyOp_nextID_le r op)
            (issuedIds_lb rest (applyOp r op) x hmem)
      · exact Nat.le_trans (applyOp_nextID_le r op)
          (issuedIds_lb rest (applyOp r op) x h)

/-- A successful `Register` operation bumps the counter by exactly one. -/
theorem regSucceeds_nextID (r : SchemaRegistry) (op : RegOp)
    (h : regSucceeds r op = true) : (applyOp r op).nextID = r.nextID + 1 := by
  cases op with
  | register now name ty sch opts =>
      show (Register r now name ty sch opts).1.nextID = r.nextID + 1
      by_cases hg : ty = SchemaTypeJSON ∧ sch.isNone = true
      · exfalso
        have h2 : (Register r now name ty sch opts).2 = some "잘못된 JSON 스키마" := by
          unfold Register; rw [if_pos hg]
        rw [regSucceeds, h2] at h
        simp at h
      · cases hcur : r.schemas name with
        | none => rw [Register_fresh r now name ty sch opts hg hcur]
        | some ex => rw [Register_bump r now name ty sch opts ex hg hcur]
  | delete name => simp [regSucceeds] at h
  | setCompat now name mode => simp [regSucceeds] at h

theorem issuedIds_chain : ∀ (ops : List RegOp) (r : SchemaRegistry),
    List.Chain' (· < ·) (issuedIds r ops)
  | [], _ => List.chain'_nil
  | op :: rest, r => by
      unfold issuedIds
      split
      · rename_i hsucc
        refine (List.chain'_cons').2 ⟨?_, issuedIds_chain rest (applyOp r op)⟩
        intro b hb
        have hble := issuedIds_lb rest (applyOp r op) b (List.mem_of_mem_head? hb)
        have hbump := regSucceeds_nextID r op hsucc
        omega
      · exact issuedIds_chain rest (applyOp r op)

/-- C3: over any sequence of operations from the fresh Store, the ids
issued by successful `Register` calls are strictly increasing (hence never
reused, even after deletions), no two simultaneously-live schemas share an
id, and no operation ever decrements the counter. -/
theorem id_monotonic_over_lifetime (ops : List RegOp) :
    List.Chain' (· < ·) (issuedIds NewSchemaRegistry ops) ∧
    (∀ nm1 nm2 s1 s2,
      (runOps NewSchemaRegistry ops).schemas nm1 = some s1 →
      (runOps NewSchemaRegistry ops).schemas nm2 = some s2 →
      s1.id = s2.id → nm1 = nm2) ∧
    (∀ (r : SchemaRegistry) (op : RegOp), r.nextID ≤ (applyOp r op).nextID) := by
  refine ⟨issuedIds_chain ops NewSchemaRegistry, ?_, fun r op => applyOp_nextID_le r op⟩
  have h := runOps_inv ops NewSchemaRegistry
    (fun nm s hs => Option.noConfusion hs)
    (fun nm1 nm2 s1 s2 h1 h2 _ => Option.noConfusion h1)
  exact h.2

/-- A lifetime with two names, a deletion and a re-registration. -/
def demoOps : List RegOp :=
  [RegOp.register 0 "A" SchemaTypeJSON demoEmptyObj none,
   RegOp.register 1 "B" SchemaTypeJSON demoEmptyObj none,
   RegOp.delete "A",
   RegOp.register 2 "A" SchemaTypeJSON demoEmptyObj none]

/-- Witness for `id_monotonic_over_lifetime`: the demo lifetime issues the
ids 1, 2, 3 — id 1 is not reused after "A" is deleted and re-registered. -/
theorem id_monotonic_over_lifetime_witness :
    issuedIds NewSchemaRegistry demoOps = [1, 2, 3] ∧
    List.Chain' (· < ·) (issuedIds NewSchemaRegistry demoOps) :=
  ⟨by decide, (id_monotonic_over_lifetime demoOps).1⟩

/-! ### C2 / C10 — the JSON validation algorithm -/

theorem checkRequired_eq (dm : List (String × JsonValue)) (fs : List JsonValue)
    (h : fs.all JsonValue.isStr = true) :
    checkRequired dm fs = some (specRequiredErrors dm fs) := by
  induction fs with
  | nil => rfl
  | cons f rest ih =>
      rw [List.all_cons, Bool.and_eq_true] at h
      obtain ⟨hf, hrest⟩ := h
      cases f with
      | str s =>
          simp only [checkRequired, specRequiredErrors, List.filterMap_cons,
            ih hrest, Option.map_some']
          by_cases hk : hasKey dm s
          · simp [hk, specRequiredErrors]
          · simp [hk, specRequiredErrors]
      | null => simp [JsonValue.isStr] at hf
      | bool b => simp [JsonValue.isStr] at hf
      | num q => simp [JsonValue.isStr] at hf
      | arr es => simp [JsonValue.isStr] at hf
      | obj fl => simp [JsonValue.isStr] at hf

theorem enumMember_eq (sv : String) (es : List JsonValue)
    (h : es.all JsonValue.isStr = true) :
    enumMember sv es =
      some (es.any (fun e =>
        match e with
        | .str s => s = sv
        | _ => false)) := by
  induction es with
  | nil => rfl
  | cons e rest ih =>
      rw [List.all_cons, Bool.and_eq_true] at h
      obtain ⟨he, hrest⟩ := h
      cases e with
      | str s =>
          simp only [enumMember, List.any_cons]
          by_cases hs : s = sv
          · simp [hs]
          · simp [hs, ih hrest]
      | null => simp [JsonValue.isStr] at he
      | bool b => simp [JsonValue.isStr] at he
      | num q => simp [JsonValue.isStr] at he
      | arr es2 => simp [JsonValue.isStr] at he
      | obj fl => simp [JsonValue.isStr] at he

/-- Shape condition on one property map: its declared enum entries are all
strings. -/
def wellShapedPropMap (pm : List (String × JsonValue)) : Bool :=
  match jlookup pm "enum" with
  | some (.arr es) => es.all JsonValue.isStr
  | _ => true

theorem validateField_eq (n : String) (v : JsonValue)
    (pm : List (String × JsonValue)) (h : wellShapedPropMap pm = true) :
    validateField n v pm = some (specFieldCheck n v pm) := by
  unfold validateField specFieldCheck
  by_cases h1 : declaredType pm = "string"
  · rw [if_pos h1, if_pos h1]
    cases v with
    | str sv =>
        cases henum : jlookup pm "enum" with
        | none => rfl
        | some ev =>
            cases ev with
            | arr es =>
                have hall : es.all JsonValue.isStr = true := by
                  rw [wellShapedPropMap, henum] at h
                  exact h
                dsimp only
                rw [enumMember_eq sv es hall]
                cases hany : es.any (fun e =>
                    match e with
                    | .str s => s = sv
                    | _ => false) with
                | true => simp [hany]
                | false => simp [hany]
            | null => rfl
            | bool b => rfl
            | num q => rfl
            | str s2 => rfl
            | obj fl => rfl
    | null => rfl
    | bool b => rfl
    | num q => rfl
    | arr es => rfl
    | obj fl => rfl
  · rw [if_neg h1, if_neg h1]
    by_cases h2 : declaredType pm = "number"
    · rw [if_pos h2, if_pos h2]
      cases v with
      | num q =>
          cases hmin : jlookup pm "minimum" with
          | none => rfl
          | some mv =>
              cases mv with
              | num m =>
                  by_cases hq : q < m
                  · simp [hq]
                  · simp [hq]
              | null => rfl
              | bool b => rfl
              | str s2 => rfl
              | arr es => rfl
              | obj fl => rfl
      | null => rfl
      | bool b => rfl
      | str s2 => rfl
      | arr es => rfl
      | obj fl => rfl
    · rw [if_neg h2, if_neg h2]
      by_cases h3 : declaredType pm = "boolean"
      · rw [if_pos h3, if_pos h3]
        cases v <;> rfl
      · rw [if_neg h3, if_neg h3]
        by_cases h4 : declaredType pm = "object"
        · rw [if_pos h4, if_pos h4]
          cases v <;> rfl
        · rw [if_neg h4, if_neg h4]
          by_cases h5 : declaredType pm = "array"
          · rw [if_pos h5, if_pos h5]
            cases v <;> rfl
          · rw [if_neg h5, if_neg h5]

theorem jlookup_mem (m : List (String × JsonValue)) (k : String) (v : JsonValue)
    (h : jlookup m k = some v) : ∃ p ∈ m, p.2 = v := by
  unfold jlookup at h
  cases hf : m.find? (fun p => p.1 = k) with
  | none => rw [hf] at h; simp at h
  | some p =>
      rw [hf] at h
      simp only [Option.map_some'] at h
      exact ⟨p, List.mem_of_find?_eq_some hf, Option.some.inj h⟩

theorem checkProps_eq (props : List (String × JsonValue))
    (hp : props.all (fun kv => wellShapedProp kv.2) = true)
    (dm : List (String × JsonValue)) :
    checkProps props dm = some (specPropErrors props dm) := by
  induction dm with
  | nil => rfl
  | cons kv rest ih =>
      obtain ⟨k, v⟩ := kv
      cases hl : jlookup props k with
      | none =>
          simp only [checkProps, specPropErrors, List.filterMap_cons, hl]
          exact ih
      | some pd =>
          obtain ⟨p, hpmem, hpv⟩ := jlookup_mem props k pd hl
          have hws : wellShapedProp pd = true := by
            rw [← hpv]
            exact List.all_eq_true.1 hp p hpmem
          cases pd with
          | obj pm =>
              have henum : wellShapedPropMap pm = true := by
                rw [wellShapedProp] at hws
                rw [wellShapedPropMap]
                exact hws
              simp only [checkProps, specPropErrors, List.filterMap_cons, hl]
              rw [validateField_eq k v pm henum]
              cases hfc : specFieldCheck k v pm with
              | none => simpa [hfc, specPropErrors] using ih
              | some e => simpa [hfc, specPropErrors] using ih
          | null => simp [wellShapedProp] at hws
          | bool b => simp [wellShapedProp] at hws
          | num q => simp [wellShapedProp] at hws
          | str s => simp [wellShapedProp] at hws
          | arr es => simp [wellShapedProp] at hws

theorem wellShaped_of_unmarshal (raw : RawMessage) (m : List (String × JsonValue))
    (h : wellShapedRaw raw = true) (hm : unmarshalMap raw = some m) :
    wellShapedSchemaMap m = true := by
  cases raw with
  | none => simp [unmarshalMap] at hm
  | some j =>
      cases j with
      | obj fields =>
          simp only [unmarshalMap] at hm
          rw [← Option.some.inj hm]
          rw [wellShapedRaw] at h
          exact h
      | null => simp [unmarshalMap] at hm
      | bool b => simp [unmarshalMap] at hm
      | num q => simp [unmarshalMap] at hm
      | str s => simp [unmarshalMap] at hm
      | arr es => simp [unmarshalMap] at hm

/-- Core refinement: on a well-shaped schema the source's `validateJSON`
panics on no payload and computes exactly the spec's algorithm. -/
theorem validateJSON_spec_eq (s : SchemaInfo) (data : RawMessage)
    (h : wellShapedRaw s.schema = true) :
    validateJSON s data = some (specValidateJSON s.schema data) := by
  unfold validateJSON specValidateJSON
  cases hdm : unmarshalMap data with
  | none => rfl
  | some dm =>
      cases hsm : unmarshalMap s.schema with
      | none => rfl
      | some sm =>
          have hws := wellShaped_of_unmarshal s.schema sm h hsm
          rw [wellShapedSchemaMap, Bool.and_eq_true] at hws
          obtain ⟨hreq, hprops⟩ := hws
          dsimp only
          have hreqeq :
              (match jlookup sm "required" with
               | some (.arr fields) => checkRequired dm fields
               | _ => some []) =
              some (match jlookup sm "required" with
                    | some (.arr fields) => specRequiredErrors dm fields
                    | _ => []) := by
            cases hr : jlookup sm "required" with
            | none => rfl
            | some rv =>
                cases rv with
                | arr fields =>
                    rw [hr] at hreq
                    exact checkRequired_eq dm fields hreq
                | null => rfl
                | bool b => rfl
                | num q => rfl
                | str s2 => rfl
                | obj fl => rfl
          have hpropeq :
              (match jlookup sm "properties" with
               | some (.obj props) => checkProps props dm
               | _ => some []) =
              some (match jlookup sm "properties" with
                    | some (.obj props) => specPropErrors props dm
                    | _ => []) := by
            cases hr : jlookup sm "properties" with
            | none => rfl
            | some pv =>
                cases pv with
                | obj props =>
                    rw [hr] at hprops
                    exact checkProps_eq props hprops dm
                | null => rfl
                | bool b => rfl
                | num q => rfl
                | str s2 => rfl
                | arr es => rfl
          rw [hreqeq]
          dsimp only
          rw [hpropeq]
          dsimp only
          generalize (match jlookup sm "required" with
                      | some (.arr fields) => specRequiredErrors dm fields
                      | _ => ([] : List String)) ++
                     (match jlookup sm "properties" with
                      | some (.obj props) => specPropErrors props dm
                      | _ => ([] : List String)) = errs
          cases errs with
          | nil => rfl
          | cons a t => simp

theorem specValidateJSON_valid_iff (raw : RawMessage) (data : RawMessage) :
    ((specValidateJSON raw data).valid = true ↔
      (specValidateJSON raw data).errors = []) := by
  unfold specValidateJSON
  cases hdm : unmarshalMap data with
  | none => simp
  | some dm =>
      cases hsm : unmarshalMap raw with
      | none => simp
      | some sm =>
          dsimp only
          generalize (match jlookup sm "required" with
                      | some (.arr fields) => specRequiredErrors dm fields
                      | _ => ([] : List String)) ++
                     (match jlookup sm "properties" with
                      | some (.obj props) => specPropErrors props dm
                      | _ => ([] : List String)) = errs
          cases errs with
          | nil => simp
          | cons a t => simp

/-- C2: for a JSON-kind schema whose parsed definition is well-shaped, the
source's `validateJSON` returns (without panicking) exactly the result of
the spec's algorithm — parse payload then schema (single-error invalid
result on failure), required-field check, per-property declared-type check
with enum and minimum, aggregation with `valid = (count == 0)` and the
succeeded / "N errors" message; moreover the result's `valid` flag is true
exactly when its error list is empty. -/
theorem validateJSON_follows_spec (s : SchemaInfo) (data : RawMessage)
    (h : wellShapedRaw s.schema = true) :
    validateJSON s data = some (specValidateJSON s.schema data) ∧
    ∀ res, validateJSON s data = some res →
      (res.valid = true ↔ res.errors = []) := by
  have h1 := validateJSON_spec_eq s data h
  refine ⟨h1, fun res hres => ?_⟩
  rw [h1] at hres
  rw [← Option.some.inj hres]
  exact specValidateJSON_valid_iff s.schema data

/-- The current schema of "OrderEvent" after seeding it into a fresh store. -/
def demoOrderInfo : SchemaInfo :=
  { id := 1, name := "OrderEvent", version := 1, type := SchemaTypeJSON,
    schema := OrderEventSchema, compatibility := CompatibilityBackward,
    description := "", createdAt := 0, updatedAt := 0 }

/-- The store holding the seeded "OrderEvent" schema. -/
def demoROrder : SchemaRegistry :=
  (Register NewSchemaRegistry 0 "OrderEvent" SchemaTypeJSON OrderEventSchema none).1

/-- The spec's §8 failing payload: missing required fields, a negative
amount and a status outside the enum. -/
def demoBadPayload : RawMessage :=
  some (JsonValue.obj
    [("order_id", JsonValue.str "ORD-2"),
     ("amount", JsonValue.num (-5)),
     ("status", JsonValue.str "bogus")])

/-- Witness for `validateJSON_follows_spec` on the OrderEvent schema and
the spec's failing payload, with the spec-side result fully evaluated. -/
theorem validateJSON_follows_spec_witness :
    wellShapedRaw demoOrderInfo.schema = true ∧
    validateJSON demoOrderInfo demoBadPayload =
      some (specValidateJSON demoOrderInfo.schema demoBadPayload) ∧
    specValidateJSON demoOrderInfo.schema demoBadPayload =
      { valid := false,
        errors := ["필수 필드 누락: customer_id", "필수 필드 누락: created_at",
                   "필드 'amount'의 값은 0 이상이어야 합니다",
                   "필드 'status'의 값 'bogus'는 허용되지 않습니다"],
        message := "4개의 검증 오류" } :=
  ⟨by decide,
   (validateJSON_follows_spec demoOrderInfo demoBadPayload (by decide)).1,
   by decide⟩

/-- C10: `Validate` is total — it returns a `ValidationResult` and never
panics, for every payload — when the name is unknown, and also when the
registered schema's parsed definition is well-shaped (all `required`
entries strings, all `properties` values objects, all `enum` entries
strings), which makes the unchecked type assertions of the JSON path
unreachable. -/
theorem validate_no_panic (r : SchemaRegistry) (name : String) :
    (r.schemas name = none → ∀ data, (Validate r name data).isSome = true) ∧
    (∀ s, r.schemas name = some s → wellShapedRaw s.schema = true →
      ∀ data, (Validate r name data).isSome = true) := by
  constructor
  · intro h data
    unfold Validate Get
    rw [h]
    rfl
  · intro s hs hws data
    unfold Validate Get
    rw [hs]
    dsimp only
    by_cases hj : s.type = SchemaTypeJSON
    · rw [if_pos hj, validateJSON_spec_eq s data hws]
      rfl
    · rw [if_neg hj]
      split_ifs <;> rfl

/-- Witness for `validate_no_panic`: the seeded OrderEvent schema is
well-shaped, so validating the failing payload returns a result. -/
theorem validate_no_panic_witness :
    wellShapedRaw demoOrderInfo.schema = true ∧
    (Validate demoROrder "OrderEvent" demoBadPayload).isSome = true ∧
    (Validate demoROrder "NoSuchSchema" demoBadPayload).isSome = true :=
  ⟨by decide,
   (validate_no_panic demoROrder "OrderEvent").2 demoOrderInfo rfl (by decide)
     demoBadPayload,
   (validate_no_panic demoROrder "NoSuchSchema").1 rfl demoBadPayload⟩
